import Mathlib

/-!
# Verification of the section-based configuration resolver and notebook results

This development embeds, in Lean, the section-based configuration pipeline of
the repository (section parser, schema registry, dependency resolver,
validator, pipeline invoker) together with the maxcut objective used by the
optimization notebook, and proves the repository's stated properties about
them.

The repository itself ships only the sample input file and the notebooks; the
resolver implementation lives in the external library the samples call into.
Definitions for the resolver components are therefore modelled from the
specification's contracts (each such definition says so in its doc comment);
the sample input file and the notebooks' recorded data are embedded verbatim
from the sources.
-/

deriving instance DecidableEq for Except

namespace Acqua

/-- Modelled from the spec: scalar configuration values.  The spec's Section
Parser types value tokens as integer, float, boolean or string.  Float tokens
keep their surface text (no floating-point arithmetic happens in this
layer). -/
inductive Scalar where
  | int (n : Nat)
  | float (tok : String)
  | boolv (b : Bool)
  | str (s : String)
deriving Repr, DecidableEq

/-- Modelled from the spec: a parsed configuration value is a scalar, or the
ordered sequence obtained from a bracketed or comma-separated value. -/
inductive Value where
  | sc (v : Scalar)
  | seq (elems : List Scalar)
deriving Repr, DecidableEq

/-- Shorthand: integer value. -/
def Value.int (n : Nat) : Value := .sc (.int n)

/-- Shorthand: float value. -/
def Value.float (tok : String) : Value := .sc (.float tok)

/-- Shorthand: boolean value. -/
def Value.boolv (b : Bool) : Value := .sc (.boolv b)

/-- Shorthand: string value. -/
def Value.str (s : String) : Value := .sc (.str s)

/-- Whitespace characters trimmed around keys and values. -/
def isWs (c : Char) : Bool := c == ' ' || c == '\t' || c == '\r' || c == '\n'

/-- Trim leading and trailing whitespace from a character list. -/
def trimChars (cs : List Char) : List Char :=
  ((cs.dropWhile isWs).reverse.dropWhile isWs).reverse

/-- Rebuild a string from characters. -/
def strOf (cs : List Char) : String := String.mk cs

/-- Numeric value of an all-digit token. -/
def natOfDigits (cs : List Char) : Nat :=
  cs.foldl (fun n c => n * 10 + (c.toNat - 48)) 0

/-- Modelled from the spec: a token is an integer token when it is all-digit
and nonempty. -/
def isIntTok (cs : List Char) : Bool := !cs.isEmpty && cs.all (·.isDigit)

/-- Drop one optional leading sign. -/
def stripSign : List Char → List Char
  | '+' :: r => r
  | '-' :: r => r
  | r => r

/-- Nonempty all-digit character list. -/
def digits1 (cs : List Char) : Bool := !cs.isEmpty && cs.all (·.isDigit)

/-- Digits containing exactly one decimal point (with digits allowed on either
side, at least one digit overall). -/
def dotMantissa (cs : List Char) : Bool :=
  let a := cs.takeWhile (fun c => !(c == '.'))
  match cs.dropWhile (fun c => !(c == '.')) with
  | [] => false
  | _ :: b => a.all (·.isDigit) && b.all (·.isDigit) && !(a.isEmpty && b.isEmpty)

/-- Exponent marker. -/
def isExpChar (c : Char) : Bool := c == 'e' || c == 'E'

/-- Modelled from the spec: a token matches the decimal/exponent float pattern
when the whole token (after an optional sign) is a decimal mantissa, or a
mantissa followed by an exponent part. -/
def isFloatTok (cs : List Char) : Bool :=
  let body := stripSign cs
  let m := body.takeWhile (fun c => !(isExpChar c))
  match body.dropWhile (fun c => !(isExpChar c)) with
  | [] => dotMantissa m
  | _ :: ex => (digits1 m || dotMantissa m) && digits1 (stripSign ex)

/-- Case-insensitive `true` literal. -/
def isTrueTok (cs : List Char) : Bool := cs.map Char.toLower == "true".data

/-- Case-insensitive `false` literal. -/
def isFalseTok (cs : List Char) : Bool := cs.map Char.toLower == "false".data

/-- Modelled from the spec: scalar value typing.  Values are parsed as integer
if all-digit, float if decimal/exponent pattern, boolean for `true`/`false`
tokens, else string. -/
def parseScalarC (cs : List Char) : Scalar :=
  if isIntTok cs then .int (natOfDigits cs)
  else if isFloatTok cs then .float (strOf cs)
  else if isTrueTok cs then .boolv true
  else if isFalseTok cs then .boolv false
  else .str (strOf cs)

/-- Scalar value typing on strings. -/
def parseScalar (s : String) : Scalar := parseScalarC s.data

/-- Split a character list at commas. -/
def splitCommaAux : List Char → List Char → List (List Char)
  | [], acc => [acc.reverse]
  | c :: cs, acc => if c == ',' then acc.reverse :: splitCommaAux cs [] else splitCommaAux cs (c :: acc)

/-- Modelled from the spec: full value parsing.  A bracketed or
comma-separated value parses to an ordered sequence of scalars; otherwise the
scalar typing applies.  Leading/trailing whitespace is trimmed. -/
def parseValue (s : String) : Value :=
  let t := trimChars s.data
  if (t.headD ' ' == '[') && (t.getLastD ' ' == ']') then
    .seq ((splitCommaAux ((t.drop 1).dropLast) []).map (fun e => parseScalarC (trimChars e)))
  else if t.contains ',' then
    .seq ((splitCommaAux t []).map (fun e => parseScalarC (trimChars e)))
  else .sc (parseScalarC t)

/-- A named configuration section: the section's canonical (upper-case) name
together with its ordered key/value entries. -/
structure Section where
  name : String
  entries : List (String × Value)
deriving Repr, DecidableEq

/-- First value bound to a key in an entry list. -/
def lookupKey : List (String × Value) → String → Option Value
  | [], _ => none
  | p :: es, k => if p.1 == k then some p.2 else lookupKey es k

/-- Whether an entry list binds a key. -/
def hasKey (es : List (String × Value)) (k : String) : Bool :=
  (lookupKey es k).isSome

/-- Bind a key in an entry list; a duplicate key overwrites the previous
binding (last value wins, the spec's explicit duplicate-key policy). -/
def insertKV (es : List (String × Value)) (k : String) (v : Value) :
    List (String × Value) :=
  if hasKey es k then es.map (fun p => if p.1 == k then (k, v) else p)
  else es ++ [(k, v)]

/-- First section carrying a given name. -/
def findSection : List Section → String → Option Section
  | [], _ => none
  | s :: ss, k => if s.name == k then some s else findSection ss k

/-- A parse failure names the offending line number (1-based) and the
offending line text. -/
structure ParseError where
  line : Nat
  text : String
deriving Repr, DecidableEq

/-- Strip a `#` line comment and surrounding whitespace. -/
def lineBody (l : String) : List Char :=
  trimChars (l.data.takeWhile (fun c => !(c == '#')))

/-- Case-insensitive `&END` delimiter. -/
def isEndTok (t : List Char) : Bool := t.map Char.toUpper == "&END".data

/-- Canonical (upper-case) section name from a `&NAME_OF_SECTION` header:
the first token after the ampersand. -/
def headerNameOf (t : List Char) : String :=
  strOf (((t.drop 1).takeWhile (fun c => !(isWs c))).map Char.toUpper)

/-- Modelled from the spec: line-by-line section parser loop.  `#` starts a
line comment; a section opens with `&NAME` and closes with `&END`; body lines
are `key=value` with whitespace trimmed around `=`; a body line with no `=`,
an unmatched `&END`, a section header inside an open section, a body line
outside any section, and an unclosed section at end of input are parse
errors naming the line. -/
def parseLoop : List String → Nat → Option Section → List Section →
    Except ParseError (List Section)
  | [], _, none, acc => .ok acc.reverse
  | [], n, some _, _ => .error ⟨n, "end of input inside a section"⟩
  | l :: ls, n, cur, acc =>
    if (lineBody l).isEmpty then parseLoop ls (n + 1) cur acc
    else if isEndTok (lineBody l) then
      match cur with
      | some s => parseLoop ls (n + 1) none (s :: acc)
      | none => .error ⟨n, l⟩
    else if (lineBody l).headD ' ' == '&' then
      match cur with
      | some _ => .error ⟨n, l⟩
      | none => parseLoop ls (n + 1) (some ⟨headerNameOf (lineBody l), []⟩) acc
    else
      match cur with
      | none => .error ⟨n, l⟩
      | some s =>
        if (lineBody l).contains '=' then
          parseLoop ls (n + 1) (some ⟨s.name, insertKV s.entries
            (strOf (trimChars ((lineBody l).takeWhile (fun c => !(c == '=')))))
            (parseValue (strOf (((lineBody l).dropWhile
              (fun c => !(c == '='))).drop 1)))⟩) acc
        else .error ⟨n, l⟩

/-- Modelled from the spec: the Section Parser, fed the input file's lines. -/
def parseLines (ls : List String) : Except ParseError (List Section) :=
  parseLoop ls 1 none []

/-- A line that opens a section: nonblank after comment stripping, not an
`&END`, and starting with an ampersand. -/
def isHeaderLine (l : String) : Bool :=
  let t := lineBody l
  !t.isEmpty && !isEndTok t && (t.headD ' ' == '&')

/-- A malformed section body line: nonblank after comment stripping, not a
delimiter, and containing no `=`. -/
def isBadBodyLine (l : String) : Bool :=
  let t := lineBody l
  !t.isEmpty && !isEndTok t && !(t.headD ' ' == '&') && !(t.contains '=')

/-- A line consisting of the `&END` delimiter. -/
def isEndLine (l : String) : Bool := isEndTok (lineBody l)

/-- Modelled from the spec: a Schema Entry holds, for one pluggable-component
implementation, the set of valid option names, the options' declared default
values, and the further section kinds the implementation requires. -/
structure SchemaEntry where
  keys : List String
  defaults : List (String × Value)
  requires : List String
deriving Repr, DecidableEq

/-- Modelled from the spec: the Schema Registry, read-only at resolution time,
keyed by pluggable-component kind and implementation name.  It is populated
with the implementations the sample input file and the notebooks exercise:
the `HDF5` driver, the `hamiltonian` operator, the `VQE` and
`ExactEigensolver` algorithms, the `L_BFGS_B` optimizer, the `RYRZ`
variational form, the `ZERO` initial state and the
`local_statevector_simulator` backend.  `VQE` requires the `OPTIMIZER`,
`VARIATIONAL_FORM` and `INITIAL_STATE` kinds; `ExactEigensolver` declares no
such requirement.  `PROBLEM` is not a pluggable kind: any problem name
carries the one-key schema `{name}`. -/
def registry (kind n : String) : Option SchemaEntry :=
  if kind == "PROBLEM" then some ⟨["name"], [], []⟩
  else if kind == "DRIVER" then
    (if n == "HDF5" then some ⟨["name"], [], []⟩ else none)
  else if kind == "OPERATOR" then
    (if n == "hamiltonian" then
      some ⟨["name", "qubit_mapping"], [("qubit_mapping", .str "parity")], []⟩
    else none)
  else if kind == "ALGORITHM" then
    (if n == "VQE" then
      some ⟨["name", "operator_mode"], [("operator_mode", .str "matrix")],
        ["OPTIMIZER", "VARIATIONAL_FORM", "INITIAL_STATE"]⟩
    else if n == "ExactEigensolver" then some ⟨["name"], [], []⟩
    else none)
  else if kind == "OPTIMIZER" then
    (if n == "L_BFGS_B" then some ⟨["name", "maxfun"], [], []⟩ else none)
  else if kind == "VARIATIONAL_FORM" then
    (if n == "RYRZ" then
      some ⟨["name", "depth", "entanglement"], [], []⟩
    else none)
  else if kind == "INITIAL_STATE" then
    (if n == "ZERO" then some ⟨["name"], [], []⟩ else none)
  else if kind == "BACKEND" then
    (if n == "local_statevector_simulator" then some ⟨["name"], [], []⟩
    else none)
  else none

/-- Modelled from the spec: each kind's schema default implementation name.
`PROBLEM.name` defaults to `energy`, `ALGORITHM.name` to `VQE`; `DRIVER` has
no default. -/
def kindDefaultName (kind : String) : Option String :=
  if kind == "PROBLEM" then some "energy"
  else if kind == "OPERATOR" then some "hamiltonian"
  else if kind == "ALGORITHM" then some "VQE"
  else if kind == "OPTIMIZER" then some "L_BFGS_B"
  else if kind == "VARIATIONAL_FORM" then some "RYRZ"
  else if kind == "INITIAL_STATE" then some "ZERO"
  else if kind == "BACKEND" then some "local_statevector_simulator"
  else none

/-- Modelled from the spec: schema of a driver's companion section (the
section named after the driver that carries the molecular configuration).
The `HDF5` driver's companion section holds the `hdf5_input` file path. -/
def companionSchema (dn : String) : SchemaEntry :=
  if dn == "HDF5" then ⟨["hdf5_input"], [], []⟩ else ⟨[], [], []⟩

/-- Surface name denoted by a value used as an implementation name. -/
def valueToName : Value → String
  | .sc (.str s) => s
  | .sc (.int n) => toString n
  | .sc (.float t) => t
  | .sc (.boolv b) => toString b
  | .seq _ => ""

/-- Implementation name selected by a section's entries: the `name` key when
present, otherwise the kind's schema default implementation name. -/
def chosenName (es : List (String × Value)) (kind : String) : Option String :=
  match lookupKey es "name" with
  | some v => some (valueToName v)
  | none => kindDefaultName kind

/-- Ensure a `name` binding, prepending the given default when absent. -/
def withName (es : List (String × Value)) (n : String) :
    List (String × Value) :=
  if hasKey es "name" then es else ("name", .str n) :: es

/-- Modelled from the spec: merge user-supplied keys over schema defaults.
User keys override defaults; keys absent from both are not invented. -/
def mergeDefaults (es ds : List (String × Value)) : List (String × Value) :=
  es ++ ds.filter (fun p => !hasKey es p.1)

/-- Entries of a resolved section: the user entries with the implementation
name made explicit and the schema defaults merged in. -/
def resolveEntries (es : List (String × Value)) (n : String)
    (e : SchemaEntry) : List (String × Value) :=
  mergeDefaults (withName es n) e.defaults

/-- Entries supplied by the user for a kind (empty when the section is
absent). -/
def entriesAt (ss : List Section) (k : String) : List (String × Value) :=
  ((findSection ss k).map Section.entries).getD []

/-- Errors of the Dependency Resolver: a required section kind is missing
with no derivable default, or a referenced implementation name has no
registered schema for its kind. -/
inductive ResolveError where
  | missingSection (kind : String)
  | unknownComponent (kind : String) (n : String)
deriving Repr, DecidableEq

/-- Modelled from the spec: resolve one pluggable-component kind.  The user
section (or an empty one) selects the implementation name, defaulting to the
kind's schema default name; the registered schema is fetched (an unregistered
name is an UnknownComponent failure; a kind with neither a user name nor a
default is a missing-section failure) and its defaults are merged in.
Returns the resolved section together with the chosen name. -/
def resolveKindN (ss : List Section) (kind : String) :
    Except ResolveError (Section × String) :=
  match chosenName (entriesAt ss kind) kind with
  | none => .error (.missingSection kind)
  | some n =>
    match registry kind n with
    | none => .error (.unknownComponent kind n)
    | some e => .ok (⟨kind, resolveEntries (entriesAt ss kind) n e⟩, n)

/-- Section kinds an algorithm implementation requires. -/
def algRequires (n : String) : List String :=
  match registry "ALGORITHM" n with
  | some e => e.requires
  | none => []

/-- Collect `Except` results over a list, failing on the first error. -/
def mapExcept (f : α → Except ε β) : List α → Except ε (List β)
  | [] => .ok []
  | a :: as =>
    match f a with
    | .error e => .error e
    | .ok b =>
      match mapExcept f as with
      | .error e => .error e
      | .ok bs => .ok (b :: bs)

/-- Section names consumed by resolution: the canonical kinds, the driver's
companion section, and the algorithm's required kinds. -/
def consumedNames (dn : String) (reqs : List String) : List String :=
  ["PROBLEM", "DRIVER", dn, "OPERATOR", "ALGORITHM", "BACKEND"] ++ reqs

/-- Modelled from the spec: the Dependency Resolver.  In the deterministic
order PROBLEM, DRIVER, driver companion, OPERATOR, ALGORITHM, the
algorithm's required kinds, BACKEND, each kind is merged with its schema
defaults; kinds absent from the user input are synthesized from their schema
default implementation name.  A missing DRIVER, or a DRIVER whose companion
section is absent, fails with a ResolutionError naming the missing kind;
resolution is atomic (either a complete configuration or an error).
Unrecognized user sections are preserved unvalidated after the resolved
kinds. -/
def resolve (ss : List Section) : Except ResolveError (List Section) :=
  match resolveKindN ss "PROBLEM" with
  | .error e => .error e
  | .ok (problem, _) =>
    match resolveKindN ss "DRIVER" with
    | .error e => .error e
    | .ok (driver, dn) =>
      match findSection ss dn with
      | none => .error (.missingSection dn)
      | some c =>
        match resolveKindN ss "OPERATOR" with
        | .error e => .error e
        | .ok (oper, _) =>
          match resolveKindN ss "ALGORITHM" with
          | .error e => .error e
          | .ok (alg, an) =>
            match mapExcept (fun k => (resolveKindN ss k).map Prod.fst)
                (algRequires an) with
            | .error e => .error e
            | .ok reqSections =>
              match resolveKindN ss "BACKEND" with
              | .error e => .error e
              | .ok (backend, _) =>
                .ok ([problem, driver,
                  ⟨dn, mergeDefaults c.entries (companionSchema dn).defaults⟩,
                  oper, alg] ++ reqSections ++ [backend] ++
                  ss.filter (fun s =>
                    !((consumedNames dn (algRequires an)).contains s.name)))

/-- The section a kind's schema would synthesize from scratch: the kind's
default implementation name plus that implementation's schema defaults. -/
def synthSection (kind : String) : Option Section :=
  (kindDefaultName kind).bind fun dn =>
    (registry kind dn).map fun e => ⟨kind, ("name", Value.str dn) :: e.defaults⟩

/-- A validation failure names the section and the offending key. -/
structure ValidationError where
  sectionName : String
  key : String
deriving Repr, DecidableEq

/-- Valid option names for a section of the resolved configuration: fixed
one-key schemas for `PROBLEM` and `DRIVER`, the companion schema for a
registered driver's companion section, and the registered implementation
schema (selected by the section's `name`) for the pluggable kinds.  `none`
means the section name is not recognized; such sections are preserved but
not validated. -/
def allowedKeys (s : Section) : Option (List String) :=
  if s.name == "PROBLEM" then some ["name"]
  else if s.name == "DRIVER" then some ["name"]
  else if s.name == "HDF5" then some (companionSchema "HDF5").keys
  else if s.name == "OPERATOR" || s.name == "ALGORITHM" ||
      s.name == "OPTIMIZER" || s.name == "VARIATIONAL_FORM" ||
      s.name == "INITIAL_STATE" || s.name == "BACKEND" then
    match chosenName s.entries s.name with
    | some n => (registry s.name n).map SchemaEntry.keys
    | none => none
  else none

/-- Violations of one section: every key must appear in the schema for the
section's declared kind; unknown keys are reported, not silently dropped. -/
def validateSection (s : Section) : List ValidationError :=
  match allowedKeys s with
  | none => []
  | some keys =>
    ((s.entries.map Prod.fst).filter (fun k => !(keys.contains k))).map
      (fun k => ⟨s.name, k⟩)

/-- Modelled from the spec: the Validator.  It is total and collects all
violations across all sections in one pass (empty list = valid). -/
def validate (ss : List Section) : List ValidationError :=
  ss.flatMap validateSection

/-- Errors that abort the pipeline before invocation. -/
inductive PipelineError where
  | parseFailure (e : ParseError)
  | resolveFailure (e : ResolveError)
  | invalid (errs : List ValidationError)
deriving Repr, DecidableEq

/-- An invocation of the external algorithm entry point: the concrete
algorithm implementation selected by `ALGORITHM.name`, constructed with the
validated resolved configuration. -/
structure Invocation where
  algName : String
  config : List Section
deriving Repr, DecidableEq

/-- `ALGORITHM.name` of a resolved configuration. -/
def algNameOf (rs : List Section) : String :=
  ((lookupKey (entriesAt rs "ALGORITHM") "name").map valueToName).getD ""

/-- Modelled from the spec: the single-threaded, synchronous pipeline
parse, then resolve, then validate, then invoke, each stage fully completing
before the next starts.  Validation errors are all surfaced together before
any invocation is attempted; invocation never proceeds with a known-invalid
configuration. -/
def runPipeline (ls : List String) : Except PipelineError Invocation :=
  match parseLines ls with
  | .error e => .error (.parseFailure e)
  | .ok ss =>
    match resolve ss with
    | .error e => .error (.resolveFailure e)
    | .ok rs =>
      match validate rs with
      | [] => .ok ⟨algNameOf rs, rs⟩
      | errs => .error (.invalid errs)

/-- The spec's end-to-end scenario 1 input: only the `DRIVER` and `HDF5`
sections, line by line. -/
def minimalInputLines : List String :=
  ["&DRIVER", "  name=HDF5", "&END",
   "&HDF5", "  hdf5_input=h2_0.735_sto-3g.hdf5", "&END"]

/-- The two sections of the minimal input. -/
def minimalSections : List Section :=
  [⟨"DRIVER", [("name", .str "HDF5")]⟩,
   ⟨"HDF5", [("hdf5_input", .str "h2_0.735_sto-3g.hdf5")]⟩]

/-- The fully resolved configuration the minimal input produces. -/
def minimalResolved : List Section :=
  [⟨"PROBLEM", [("name", .str "energy")]⟩,
   ⟨"DRIVER", [("name", .str "HDF5")]⟩,
   ⟨"HDF5", [("hdf5_input", .str "h2_0.735_sto-3g.hdf5")]⟩,
   ⟨"OPERATOR", [("name", .str "hamiltonian"), ("qubit_mapping", .str "parity")]⟩,
   ⟨"ALGORITHM", [("name", .str "VQE"), ("operator_mode", .str "matrix")]⟩,
   ⟨"OPTIMIZER", [("name", .str "L_BFGS_B")]⟩,
   ⟨"VARIATIONAL_FORM", [("name", .str "RYRZ")]⟩,
   ⟨"INITIAL_STATE", [("name", .str "ZERO")]⟩,
   ⟨"BACKEND", [("name", .str "local_statevector_simulator")]⟩]

/-- Value bound to a key of a named section of a configuration. -/
def sectionValue (ss : List Section) (sec k : String) : Option Value :=
  (findSection ss sec).bind (fun s => lookupKey s.entries k)

/-- The repository's sample input file, embedded line by line verbatim. -/
def sampleInputLines : List String := [
  "# Sample input file for QISKit ACQUA Chemistry stack.",
  "#",
  "# This is a simple sample to show representative sections but not",
  "# all fields are shown. Consult the documentation for further",
  "# information and complete list of sections and field names.",
  "# Many sections and fields default to suitable values in order to",
  "# simplify editing this input file. However using the GUI to edit",
  "# an input file is recommended as it simplifies the editing task",
  "# by presenting only appropriate sections according to problem type",
  "# and algorithm selected. The input file is also validated against",
  "# the combined schema of all the constituent sections",
  "",
  "# NAME is an optional section for the user to describe this file's purpose",
  "#",
  "&NAME",
  "H2 molecule experiment. In order to be to run this, with no further",
  "driver installation requirements this will use the HDF5 file driver.",
  "&END",
  "",
  "# Problem to be solved. Defaults to energy",
  "#",
  "&PROBLEM",
  "  name=energy",
  "&END",
  "",
  "# External library DRIVER used for electronic structure computation.",
  "# The DRIVER is named here and matching section should contain the",
  "# molecular configuration for the driver. This molecular configuration",
  "# is driver dependent so please consult the driver documentation",
  "# for more information. The configuration will include the molecule and",
  "# and basis set plus any additional configuration needed. From the",
  "# driver computation one and two electron integrals are extracted from",
  "# the result.",
  "#",
  "&DRIVER",
  "  name=HDF5",
  "&END",
  "",
  "# -- Molecule and config in driver specific format",
  "# Drivers need an external chemistry program or library to be installed.",
  "# QISKit ACQUA Chemistry provides the interfacing logic but the actual",
  "# program or library it interfaces with needs to be separately installed.",
  "# The configuration needed in this section depends on the specific driver.",
  "# Please see the particular driver documentation for more information.",
  "# This sample, as it uses the HDF5 driver, just needs to refer to an",
  "# hdf5 file that was written from a prior chemistry driver usage. See the",
  "# HDF5 driver documentation for more detail on this.",
  "&HDF5",
  "  hdf5_input=h2_0.735_sto-3g.hdf5",
  "&END",
  "",
  "# Absolute bare minimum input file is just the driver info. With just",
  "# this a default OPERATOR and ALGORITHM will be used for the computation",
  "# OPERATOR and ALGORITHM may be given here to select a specific chosen",
  "# configuration other than the default.",
  "#",
  "# At this point we have integral matrices which we are passed on down the",
  "# chemistry stack to create the fermionic and qubit hamiltonians and run the",
  "# energy computation using the algorithm which defaults to VQE.",
  "#",
  "&OPERATOR",
  " name=hamiltonian",
  " qubit_mapping=parity",
  "&END",
  "",
  "# Algorithm is named here. Default is VQE.",
  "#",
  "# VQE has some parameters and an Optimizer and Variational form can be specifically",
  "# defined in this input file to replace the default ones that would otherwise be used",
  "#",
  "&ALGORITHM",
  "  name=VQE",
  "  operator_mode=matrix",
  "&END",
  "",
  "# Below are specific configuration sections that depend on choice of ALGORITHM",
  "# For VQE this is OPTIMIZER, VARIATIONAL_FORM and INITIAL_STATE",
  "# Each specific entity to be used is named here",
  "#",
  "&OPTIMIZER",
  "  name=L_BFGS_B",
  "&END",
  "",
  "&VARIATIONAL_FORM",
  "  name=RYRZ",
  "&END",
  "",
  "&INITIAL_STATE",
  "  name=ZERO",
  "&END",
  "",
  "",
  "# BACKEND specifies the particular quantum computing backend, whether real",
  "# device or simulator that wll be used. The BACKEND will default to a QISkit",
  "# local simulator without this section.",
  "#",
  "# To use non-local device the user also needs to have edited the qiskit",
  "# Qconfig.py.default file from the QISKit root and placed there Qconfig.py",
  "# with the right values, such as API_Token. See the QISKit installation",
  "# documentation for more information",
  "#",
  "&BACKEND",
  "  name=local_statevector_simulator",
  "&END"]

/-- The 4-node integer weight matrix the maxcut notebook prints for seed
8123179, embedded verbatim from the recorded cell output. -/
def sampleW : Fin 4 → Fin 4 → ℤ :=
  ![![0, 8, -9, 0], ![8, 0, 7, 9], ![-9, 7, 0, -8], ![0, 9, -8, 0]]

/-- Modelled from the spec: the maxcut objective value of a binary vector on
an integer-weighted graph (the notebook's graphs carry integer weights).
The notebook defines the cut value of a subset S of vertices as the sum of
the weights of the edges with one endpoint in S and the other outside S;
with x the indicator vector of S this is the sum of `w i j` over the pairs
with `x i = 1` and `x j = 0` (the external `maxcut.maxcut_value` the
notebook calls is not in this repository). -/
def maxcutValue (n : ℕ) (x : Fin n → Bool) (w : Fin n → Fin n → ℤ) : ℤ :=
  ∑ i, ∑ j, w i j * (if x i then 1 else 0) * (if x j then 0 else 1)

/-- The solution bitstring `[1, 0, 1, 1]` both classical solvers report in
the notebook's recorded outputs. -/
def sampleSolution : Fin 4 → Bool := ![true, false, true, true]

/-- One recorded classical maxcut run of the notebook: reported energy,
maxcut objective (energy plus offset), solution bitstring, and the
solution's objective value. -/
structure MaxcutRun where
  energy : ℚ
  maxcutObjective : ℚ
  solution : List Bool
  solutionObjective : ℚ
deriving Repr, DecidableEq

/-- Recorded output of the notebook's ExactEigensolver cell: energy -20.5,
maxcut objective -24.0, solution [1. 0. 1. 1.], solution objective 24.0. -/
def exactEigensolverRun : MaxcutRun :=
  ⟨-41 / 2, -24, [true, false, true, true], 24⟩

/-- Recorded output of the notebook's CPLEX cell: energy -20.5, maxcut
objective -24.0, solution [1 0 1 1], solution objective 24.0. -/
def cplexRun : MaxcutRun :=
  ⟨-41 / 2, -24, [true, false, true, true], 24⟩

theorem findSection_cons (s : Section) (ss : List Section) (k : String) :
    findSection (s :: ss) k = if s.name == k then some s else findSection ss k := rfl

theorem lookupKey_append_of_hasKey {u : List (String × Value)}
    (v : List (String × Value)) {k : String} (h : hasKey u k = true) :
    lookupKey (u ++ v) k = lookupKey u k := by
  induction u with
  | nil => simp [hasKey, lookupKey] at h
  | cons p es ih =>
    by_cases hp : (p.1 == k) = true
    · simp [lookupKey, hp]
    · have h' : hasKey es k = true := by
        simpa [hasKey, lookupKey, hp] using h
      simp [lookupKey, hp, ih h']

theorem hasKey_append_left {u : List (String × Value)}
    (v : List (String × Value)) {k : String} (h : hasKey u k = true) :
    hasKey (u ++ v) k = true := by
  simp [hasKey, lookupKey_append_of_hasKey v h]
  simpa [hasKey] using h

theorem hasKey_of_mem {es : List (String × Value)} {p : String × Value}
    (h : p ∈ es) : hasKey es p.1 = true := by
  induction es with
  | nil => simp at h
  | cons q es ih =>
    rcases List.mem_cons.mp h with rfl | h'
    · simp [hasKey, lookupKey]
    · by_cases hq : (q.1 == p.1) = true
      · simp [hasKey, lookupKey, hq]
      · simpa [hasKey, lookupKey, hq] using ih h'

theorem hasKey_append (u v : List (String × Value)) (k : String) :
    hasKey (u ++ v) k = (hasKey u k || hasKey v k) := by
  induction u with
  | nil => simp [hasKey, lookupKey]
  | cons p es ih =>
    by_cases hp : (p.1 == k) = true
    · simp [hasKey, lookupKey, List.cons_append, hp]
    · simpa [hasKey, lookupKey, List.cons_append, hp] using ih

theorem hasKey_mergeDefaults {u ds : List (String × Value)}
    {p : String × Value} (h : p ∈ ds) :
    hasKey (mergeDefaults u ds) p.1 = true := by
  unfold mergeDefaults
  rw [hasKey_append]
  by_cases hu : hasKey u p.1 = true
  · simp [hu]
  · have hmem : p ∈ ds.filter (fun q => !hasKey u q.1) := by
      refine List.mem_filter.mpr ⟨h, ?_⟩
      simp [hu]
    simp [hasKey_of_mem hmem]

theorem mergeDefaults_idem (u ds : List (String × Value)) :
    mergeDefaults (mergeDefaults u ds) ds = mergeDefaults u ds := by
  have hfil : ds.filter (fun q => !hasKey (mergeDefaults u ds) q.1) = [] := by
    refine List.filter_eq_nil_iff.mpr ?_
    intro p hp
    simp [hasKey_mergeDefaults hp]
  conv_lhs => rw [mergeDefaults]
  rw [hfil, List.append_nil]

theorem withName_of_hasKey {es : List (String × Value)} {n : String}
    (h : hasKey es "name" = true) : withName es n = es := by
  simp [withName, h]

theorem hasKey_withName (es : List (String × Value)) (n : String) :
    hasKey (withName es n) "name" = true := by
  by_cases h : hasKey es "name" = true
  · rw [withName_of_hasKey h]
    exact h
  · have h' : hasKey es "name" = false := by simpa using h
    unfold withName
    rw [h']
    simp [hasKey, lookupKey]

theorem hasKey_mergeDefaults_left {u : List (String × Value)}
    (ds : List (String × Value)) {k : String} (h : hasKey u k = true) :
    hasKey (mergeDefaults u ds) k = true := by
  unfold mergeDefaults
  exact hasKey_append_left _ h

theorem resolveEntries_idem (es : List (String × Value)) (n : String)
    (e : SchemaEntry) :
    resolveEntries (resolveEntries es n e) n e = resolveEntries es n e := by
  unfold resolveEntries
  rw [withName_of_hasKey (hasKey_mergeDefaults_left _ (hasKey_withName es n)),
    mergeDefaults_idem]

theorem lookupKey_resolveEntries_name (es : List (String × Value))
    (n : String) (e : SchemaEntry) :
    lookupKey (resolveEntries es n e) "name" = lookupKey (withName es n) "name" := by
  unfold resolveEntries mergeDefaults
  exact lookupKey_append_of_hasKey _ (hasKey_withName es n)

theorem chosenName_resolveEntries {es : List (String × Value)}
    {kind n : String} (e : SchemaEntry) (h : chosenName es kind = some n) :
    chosenName (resolveEntries es n e) kind = some n := by
  unfold chosenName at h ⊢
  rw [lookupKey_resolveEntries_name]
  cases hl : lookupKey es "name" with
  | some v =>
    have hn : valueToName v = n := by
      rw [hl] at h
      exact Option.some.inj h
    rw [withName_of_hasKey (by simp [hasKey, hl])]
    simp [hl, hn]
  | none =>
    simp only [hl] at h
    have h2 : hasKey es "name" = false := by simp [hasKey, hl]
    unfold withName
    simp [h2, lookupKey, Value.str, valueToName, h]

theorem resolveKindN_ok_inv {ss : List Section} {k : String} {sec : Section}
    {n : String} (h : resolveKindN ss k = .ok (sec, n)) :
    chosenName (entriesAt ss k) k = some n ∧
    ∃ e, registry k n = some e ∧ sec = ⟨k, resolveEntries (entriesAt ss k) n e⟩ := by
  unfold resolveKindN at h
  split at h
  · exact absurd h (by simp)
  · rename_i n0 hc
    split at h
    · exact absurd h (by simp)
    · rename_i e hr
      injection h with h2
      have hn : n0 = n := congrArg Prod.snd h2
      subst hn
      have hsec : sec = ⟨k, resolveEntries (entriesAt ss k) n0 e⟩ :=
        (congrArg Prod.fst h2).symm
      exact ⟨hc, e, hr, hsec⟩

theorem resolveKindN_name {ss : List Section} {k : String} {sec : Section}
    {n : String} (h : resolveKindN ss k = .ok (sec, n)) : sec.name = k := by
  obtain ⟨-, e, -, rfl⟩ := resolveKindN_ok_inv h
  rfl

theorem resolveKindN_fix {ss ts : List Section} {k : String} {sec : Section}
    {n : String} (h : resolveKindN ss k = .ok (sec, n))
    (hf : findSection ts k = some sec) : resolveKindN ts k = .ok (sec, n) := by
  obtain ⟨hc, e, hr, rfl⟩ := resolveKindN_ok_inv h
  have hts : entriesAt ts k = resolveEntries (entriesAt ss k) n e := by
    simp [entriesAt, hf]
  simp only [resolveKindN, hts, chosenName_resolveEntries e hc, hr,
    resolveEntries_idem]

theorem registry_driver_inv {n : String} {e : SchemaEntry}
    (h : registry "DRIVER" n = some e) : n = "HDF5" := by
  by_cases hn : n = "HDF5"
  · exact hn
  · rw [registry] at h
    have hb : (n == "HDF5") = false := by
      simpa using hn
    simp [hb] at h

theorem registry_alg_inv {n : String} {e : SchemaEntry}
    (h : registry "ALGORITHM" n = some e) :
    (n = "VQE" ∧ algRequires n = ["OPTIMIZER", "VARIATIONAL_FORM", "INITIAL_STATE"]) ∨
    (n = "ExactEigensolver" ∧ algRequires n = []) := by
  by_cases h1 : n = "VQE"
  · subst h1
    left
    exact ⟨rfl, by decide⟩
  · by_cases h2 : n = "ExactEigensolver"
    · subst h2
      right
      exact ⟨rfl, by decide⟩
    · rw [registry] at h
      have hb1 : (n == "VQE") = false := by simpa using h1
      have hb2 : (n == "ExactEigensolver") = false := by simpa using h2
      simp [hb1, hb2] at h

theorem resolve_ok_inv {ss rs : List Section} (h : resolve ss = .ok rs) :
    ∃ problem np driver dn c oper no alg an reqS backend nb,
      resolveKindN ss "PROBLEM" = .ok (problem, np) ∧
      resolveKindN ss "DRIVER" = .ok (driver, dn) ∧
      findSection ss dn = some c ∧
      resolveKindN ss "OPERATOR" = .ok (oper, no) ∧
      resolveKindN ss "ALGORITHM" = .ok (alg, an) ∧
      mapExcept (fun k => (resolveKindN ss k).map Prod.fst) (algRequires an) =
        .ok reqS ∧
      resolveKindN ss "BACKEND" = .ok (backend, nb) ∧
      rs = [problem, driver,
          ⟨dn, mergeDefaults c.entries (companionSchema dn).defaults⟩,
          oper, alg] ++ reqS ++ [backend] ++
        ss.filter (fun s =>
          !((consumedNames dn (algRequires an)).contains s.name)) := by
  unfold resolve at h
  split at h
  · exact absurd h (by simp)
  · rename_i problem np hp
    split at h
    · exact absurd h (by simp)
    · rename_i driver dn hd
      split at h
      · exact absurd h (by simp)
      · rename_i c hc
        split at h
        · exact absurd h (by simp)
        · rename_i oper no hop
          split at h
          · exact absurd h (by simp)
          · rename_i alg an halg
            split at h
            · exact absurd h (by simp)
            · rename_i reqS hreq
              split at h
              · exact absurd h (by simp)
              · rename_i backend nb hb
                exact ⟨problem, np, driver, dn, c, oper, no, alg, an, reqS,
                  backend, nb, hp, hd, hc, hop, halg, hreq, hb,
                  (Except.ok.inj h).symm⟩

theorem mapExcept_cons_inv {f : α → Except ε β} {a : α} {as : List α}
    {bs : List β} (h : mapExcept f (a :: as) = .ok bs) :
    ∃ b bs', f a = .ok b ∧ mapExcept f as = .ok bs' ∧ bs = b :: bs' := by
  unfold mapExcept at h
  split at h
  · exact absurd h (by simp)
  · rename_i b hfa
    split at h
    · exact absurd h (by simp)
    · rename_i bs' has
      exact ⟨b, bs', hfa, has, (Except.ok.inj h).symm⟩

theorem mapFst_ok_inv {ss : List Section} {k : String} {sec : Section}
    (h : (resolveKindN ss k).map Prod.fst = .ok sec) :
    ∃ n, resolveKindN ss k = .ok (sec, n) := by
  cases hx : resolveKindN ss k with
  | error e => rw [hx] at h; exact absurd h (by simp [Except.map])
  | ok pr =>
    rw [hx] at h
    refine ⟨pr.2, ?_⟩
    have : pr.1 = sec := Except.ok.inj h
    rw [← this]

/-- C7: resolve is idempotent.  A Resolved Configuration — the output of
`resolve`, in which every defaulted key and every required companion section
is present — resolves to itself unchanged. -/
theorem resolve_idempotent (ss rs : List Section) (h : resolve ss = .ok rs) :
    resolve rs = .ok rs := by
  obtain ⟨p, np, d, dn, c, op, no, alg, an, reqS, b, nb,
    hp, hd, hc, hop, halg, hreq, hb, hrs⟩ := resolve_ok_inv h
  have hpn : p.name = "PROBLEM" := resolveKindN_name hp
  have hdn : d.name = "DRIVER" := resolveKindN_name hd
  have hopn : op.name = "OPERATOR" := resolveKindN_name hop
  have haln : alg.name = "ALGORITHM" := resolveKindN_name halg
  have hbn : b.name = "BACKEND" := resolveKindN_name hb
  have hdn5 : dn = "HDF5" := by
    obtain ⟨-, e, hre, -⟩ := resolveKindN_ok_inv hd
    exact registry_driver_inv hre
  subst hdn5
  obtain ⟨-, ea, hra, -⟩ := resolveKindN_ok_inv halg
  have hcm2 : (⟨"HDF5", mergeDefaults
      (mergeDefaults c.entries (companionSchema "HDF5").defaults)
      (companionSchema "HDF5").defaults⟩ : Section) =
      ⟨"HDF5", mergeDefaults c.entries (companionSchema "HDF5").defaults⟩ := by
    rw [mergeDefaults_idem]
  rcases registry_alg_inv hra with ⟨han, hreqs⟩ | ⟨han, hreqs⟩
  · subst han
    rw [hreqs] at hreq hrs
    obtain ⟨o, r1, hfo, hr1, hreqS⟩ := mapExcept_cons_inv hreq
    obtain ⟨v, r2, hfv, hr2, hr1e⟩ := mapExcept_cons_inv hr1
    obtain ⟨i, r3, hfi, hr3, hr2e⟩ := mapExcept_cons_inv hr2
    have hr3e : r3 = [] := by
      unfold mapExcept at hr3
      exact (Except.ok.inj hr3).symm
    subst hreqS hr1e hr2e hr3e
    obtain ⟨no2, hko⟩ := mapFst_ok_inv hfo
    obtain ⟨nv2, hkv⟩ := mapFst_ok_inv hfv
    obtain ⟨ni2, hki⟩ := mapFst_ok_inv hfi
    have hon : o.name = "OPTIMIZER" := resolveKindN_name hko
    have hvn : v.name = "VARIATIONAL_FORM" := resolveKindN_name hkv
    have hin : i.name = "INITIAL_STATE" := resolveKindN_name hki
    have hfP : findSection rs "PROBLEM" = some p := by
      rw [hrs]; simp [findSection_cons, hpn]
    have hfD : findSection rs "DRIVER" = some d := by
      rw [hrs]; simp [findSection_cons, hpn, hdn]
    have hfC : findSection rs "HDF5" =
        some ⟨"HDF5", mergeDefaults c.entries (companionSchema "HDF5").defaults⟩ := by
      rw [hrs]; simp [findSection_cons, hpn, hdn]
    have hfOp : findSection rs "OPERATOR" = some op := by
      rw [hrs]; simp [findSection_cons, hpn, hdn, hopn]
    have hfAlg : findSection rs "ALGORITHM" = some alg := by
      rw [hrs]; simp [findSection_cons, hpn, hdn, hopn, haln]
    have hfO : findSection rs "OPTIMIZER" = some o := by
      rw [hrs]; simp [findSection_cons, hpn, hdn, hopn, haln, hon]
    have hfV : findSection rs "VARIATIONAL_FORM" = some v := by
      rw [hrs]; simp [findSection_cons, hpn, hdn, hopn, haln, hon, hvn]
    have hfI : findSection rs "INITIAL_STATE" = some i := by
      rw [hrs]; simp [findSection_cons, hpn, hdn, hopn, haln, hon, hvn, hin]
    have hfB : findSection rs "BACKEND" = some b := by
      rw [hrs]; simp [findSection_cons, hpn, hdn, hopn, haln, hon, hvn, hin, hbn]
    have hfilt : rs.filter (fun s =>
        !((consumedNames "HDF5"
          ["OPTIMIZER", "VARIATIONAL_FORM", "INITIAL_STATE"]).contains s.name)) =
        ss.filter (fun s =>
        !((consumedNames "HDF5"
          ["OPTIMIZER", "VARIATIONAL_FORM", "INITIAL_STATE"]).contains s.name)) := by
      rw [hrs]
      simp [List.filter_append, List.filter_cons, hpn, hdn, hopn, haln, hon,
        hvn, hin, hbn, consumedNames, List.filter_filter]
    have hmara : mapExcept (fun k => (resolveKindN rs k).map Prod.fst)
        ["OPTIMIZER", "VARIATIONAL_FORM", "INITIAL_STATE"] = .ok [o, v, i] := by
      simp only [mapExcept, resolveKindN_fix hko hfO, resolveKindN_fix hkv hfV,
        resolveKindN_fix hki hfI, Except.map]
    unfold resolve
    rw [resolveKindN_fix hp hfP, resolveKindN_fix hd hfD]
    simp only [resolveKindN_fix hp hfP, resolveKindN_fix hd hfD, hfC,
      resolveKindN_fix hop hfOp, resolveKindN_fix halg hfAlg, hreqs, hmara,
      resolveKindN_fix hb hfB, hcm2, hfilt]
    rw [hrs]
  · subst han
    rw [hreqs] at hreq hrs
    have hreqS : reqS = [] := by
      unfold mapExcept at hreq
      exact (Except.ok.inj hreq).symm
    subst hreqS
    have hfP : findSection rs "PROBLEM" = some p := by
      rw [hrs]; simp [findSection_cons, hpn]
    have hfD : findSection rs "DRIVER" = some d := by
      rw [hrs]; simp [findSection_cons, hpn, hdn]
    have hfC : findSection rs "HDF5" =
        some ⟨"HDF5", mergeDefaults c.entries (companionSchema "HDF5").defaults⟩ := by
      rw [hrs]; simp [findSection_cons, hpn, hdn]
    have hfOp : findSection rs "OPERATOR" = some op := by
      rw [hrs]; simp [findSection_cons, hpn, hdn, hopn]
    have hfAlg : findSection rs "ALGORITHM" = some alg := by
      rw [hrs]; simp [findSection_cons, hpn, hdn, hopn, haln]
    have hfB : findSection rs "BACKEND" = some b := by
      rw [hrs]; simp [findSection_cons, hpn, hdn, hopn, haln, hbn]
    have hfilt : rs.filter (fun s =>
        !((consumedNames "HDF5" ([] : List String)).contains s.name)) =
        ss.filter (fun s =>
        !((consumedNames "HDF5" ([] : List String)).contains s.name)) := by
      rw [hrs]
      simp [List.filter_append, List.filter_cons, hpn, hdn, hopn, haln, hbn,
        consumedNames, List.filter_filter]
    unfold resolve
    simp only [resolveKindN_fix hp hfP, resolveKindN_fix hd hfD, hfC,
      resolveKindN_fix hop hfOp, resolveKindN_fix halg hfAlg, hreqs,
      mapExcept, resolveKindN_fix hb hfB, hcm2, hfilt]
    rw [hrs]

theorem resolveKindN_problem_ok (ss : List Section) :
    ∃ pr, resolveKindN ss "PROBLEM" = .ok pr := by
  unfold resolveKindN
  cases hl : lookupKey (entriesAt ss "PROBLEM") "name" with
  | some v =>
    refine ⟨(⟨"PROBLEM", resolveEntries (entriesAt ss "PROBLEM")
      (valueToName v) ⟨["name"], [], []⟩⟩, valueToName v), ?_⟩
    simp [chosenName, hl, registry]
  | none =>
    refine ⟨(⟨"PROBLEM", resolveEntries (entriesAt ss "PROBLEM")
      "energy" ⟨["name"], [], []⟩⟩, "energy"), ?_⟩
    simp [chosenName, hl, registry, kindDefaultName]

/-- C2: for every parsed section list with no DRIVER section, resolution
fails with a ResolutionError naming DRIVER as the missing kind; no resolved
configuration is produced. -/
theorem resolve_missing_driver (ss : List Section)
    (h : findSection ss "DRIVER" = none) :
    resolve ss = .error (.missingSection "DRIVER") := by
  obtain ⟨⟨p, np⟩, hpr⟩ := resolveKindN_problem_ok ss
  have he : entriesAt ss "DRIVER" = [] := by simp [entriesAt, h]
  have hdrv : resolveKindN ss "DRIVER" = .error (.missingSection "DRIVER") := by
    unfold resolveKindN
    rw [he]
    decide
  unfold resolve
  simp only [hpr, hdrv]

/-- Witness for C2 at a concrete input: the empty section list has no DRIVER
section and resolves to the DRIVER resolution error. -/
theorem resolve_missing_driver_witness :
    findSection [] "DRIVER" = none ∧
    resolve [] = .error (.missingSection "DRIVER") :=
  ⟨rfl, resolve_missing_driver [] rfl⟩

/-- C3: for every configuration whose ALGORITHM section selects `name=VQE`
and that contains none of the OPTIMIZER, VARIATIONAL_FORM and INITIAL_STATE
sections, successful resolution synthesizes all three, each carrying its
kind's schema default implementation name and that implementation's schema
defaults. -/
theorem resolve_vqe_synthesizes (ss rs : List Section)
    (h : resolve ss = .ok rs)
    (halg : lookupKey (entriesAt ss "ALGORITHM") "name" = some (.str "VQE"))
    (ho : findSection ss "OPTIMIZER" = none)
    (hv : findSection ss "VARIATIONAL_FORM" = none)
    (hi : findSection ss "INITIAL_STATE" = none) :
    findSection rs "OPTIMIZER" = synthSection "OPTIMIZER" ∧
    findSection rs "VARIATIONAL_FORM" = synthSection "VARIATIONAL_FORM" ∧
    findSection rs "INITIAL_STATE" = synthSection "INITIAL_STATE" := by
  obtain ⟨p, np, d, dn, c, op, no, alg, an, reqS, b, nb,
    hp, hd, hc, hop, hAlg, hreq, hb, hrs⟩ := resolve_ok_inv h
  have hpn : p.name = "PROBLEM" := resolveKindN_name hp
  have hdn : d.name = "DRIVER" := resolveKindN_name hd
  have hopn : op.name = "OPERATOR" := resolveKindN_name hop
  have haln : alg.name = "ALGORITHM" := resolveKindN_name hAlg
  have hdn5 : dn = "HDF5" := by
    obtain ⟨-, e, hre, -⟩ := resolveKindN_ok_inv hd
    exact registry_driver_inv hre
  subst hdn5
  have han : an = "VQE" := by
    obtain ⟨hcn, -⟩ := resolveKindN_ok_inv hAlg
    rw [chosenName, halg] at hcn
    simpa [valueToName, Value.str] using hcn.symm
  subst han
  have hreqs : algRequires "VQE" =
      ["OPTIMIZER", "VARIATIONAL_FORM", "INITIAL_STATE"] := by decide
  rw [hreqs] at hreq hrs
  obtain ⟨o, r1, hfo, hr1, hreqS⟩ := mapExcept_cons_inv hreq
  obtain ⟨v, r2, hfv, hr2, hr1e⟩ := mapExcept_cons_inv hr1
  obtain ⟨i, r3, hfi, hr3, hr2e⟩ := mapExcept_cons_inv hr2
  have hr3e : r3 = [] := by
    unfold mapExcept at hr3
    exact (Except.ok.inj hr3).symm
  subst hreqS hr1e hr2e hr3e
  have hoe : entriesAt ss "OPTIMIZER" = [] := by simp [entriesAt, ho]
  have hve : entriesAt ss "VARIATIONAL_FORM" = [] := by simp [entriesAt, hv]
  have hie : entriesAt ss "INITIAL_STATE" = [] := by simp [entriesAt, hi]
  have hko : resolveKindN ss "OPTIMIZER" =
      .ok (⟨"OPTIMIZER", [("name", Value.str "L_BFGS_B")]⟩, "L_BFGS_B") := by
    unfold resolveKindN
    rw [hoe]
    decide
  have hkv : resolveKindN ss "VARIATIONAL_FORM" =
      .ok (⟨"VARIATIONAL_FORM", [("name", Value.str "RYRZ")]⟩, "RYRZ") := by
    unfold resolveKindN
    rw [hve]
    decide
  have hki : resolveKindN ss "INITIAL_STATE" =
      .ok (⟨"INITIAL_STATE", [("name", Value.str "ZERO")]⟩, "ZERO") := by
    unfold resolveKindN
    rw [hie]
    decide
  have hoval : o = ⟨"OPTIMIZER", [("name", Value.str "L_BFGS_B")]⟩ := by
    rw [hko] at hfo
    simpa [Except.map] using hfo.symm
  have hvval : v = ⟨"VARIATIONAL_FORM", [("name", Value.str "RYRZ")]⟩ := by
    rw [hkv] at hfv
    simpa [Except.map] using hfv.symm
  have hival : i = ⟨"INITIAL_STATE", [("name", Value.str "ZERO")]⟩ := by
    rw [hki] at hfi
    simpa [Except.map] using hfi.symm
  subst hoval hvval hival
  subst hrs
  refine ⟨?_, ?_, ?_⟩
  · simp [findSection_cons, hpn, hdn, hopn, haln]
    decide
  · simp [findSection_cons, hpn, hdn, hopn, haln]
    decide
  · simp [findSection_cons, hpn, hdn, hopn, haln]
    decide

/-- Input for exercising VQE requirement synthesis: the minimal DRIVER/HDF5
sections plus an explicit `ALGORITHM name=VQE` section. -/
def vqeInput : List Section :=
  [⟨"DRIVER", [("name", .str "HDF5")]⟩,
   ⟨"HDF5", [("hdf5_input", .str "h2_0.735_sto-3g.hdf5")]⟩,
   ⟨"ALGORITHM", [("name", .str "VQE")]⟩]

/-- Witness for C3 at a concrete input: the VQE input resolves, and the
three required sections are synthesized with their schema default names. -/
theorem resolve_vqe_synthesizes_witness :
    resolve vqeInput = .ok minimalResolved ∧
    (findSection minimalResolved "OPTIMIZER" = synthSection "OPTIMIZER" ∧
     findSection minimalResolved "VARIATIONAL_FORM" =
       synthSection "VARIATIONAL_FORM" ∧
     findSection minimalResolved "INITIAL_STATE" =
       synthSection "INITIAL_STATE") :=
  ⟨by decide, resolve_vqe_synthesizes vqeInput minimalResolved (by decide)
    (by decide) rfl rfl rfl⟩

/-- C1: the minimal two-section input (DRIVER name=HDF5 and HDF5 with the
h2 data file) parses, resolves to a configuration carrying
PROBLEM.name=energy, ALGORITHM.name=VQE and OPTIMIZER.name equal to the
registered VQE default optimizer name L_BFGS_B, and validates with no
ValidationError. -/
theorem minimal_input_end_to_end :
    parseLines minimalInputLines = .ok minimalSections ∧
    resolve minimalSections = .ok minimalResolved ∧
    sectionValue minimalResolved "PROBLEM" "name" = some (.str "energy") ∧
    sectionValue minimalResolved "ALGORITHM" "name" = some (.str "VQE") ∧
    kindDefaultName "OPTIMIZER" = some "L_BFGS_B" ∧
    sectionValue minimalResolved "OPTIMIZER" "name" = some (.str "L_BFGS_B") ∧
    validate minimalResolved = [] := by
  decide

/-- C4: a section body line with no `=` fails the parser with a ParseError
naming the line number and the offending text, as does an unmatched `&END`;
in particular the repository's own sample input file fails at line 16, the
first free-text body line of its NAME section. -/
theorem parser_rejects_malformed_lines :
    (∀ hdr l rest, isHeaderLine hdr = true → isBadBodyLine l = true →
      parseLines (hdr :: l :: rest) = .error ⟨2, l⟩) ∧
    (∀ l rest, isEndLine l = true → parseLines (l :: rest) = .error ⟨1, l⟩) ∧
    parseLines sampleInputLines = .error ⟨16,
      "H2 molecule experiment. In order to be to run this, with no further"⟩ := by
  refine ⟨?_, ?_, by decide⟩
  · intro hdr l rest hh hb
    have hh3 := hh
    simp only [isHeaderLine, Bool.and_eq_true, Bool.not_eq_true'] at hh3
    obtain ⟨⟨h1, h2⟩, h3⟩ := hh3
    have hb4 := hb
    simp only [isBadBodyLine, Bool.and_eq_true, Bool.not_eq_true'] at hb4
    obtain ⟨⟨⟨g1, g2⟩, g3⟩, g4⟩ := hb4
    unfold parseLines
    unfold parseLoop
    rw [h1, h2, h3]
    simp only [Bool.false_eq_true, if_false, if_true]
    unfold parseLoop
    rw [g1, g2, g3, g4]
    simp
  · intro l rest hend
    have he : isEndTok (lineBody l) = true := hend
    have h1 : (lineBody l).isEmpty = false := by
      cases hT : lineBody l with
      | nil => rw [hT] at he; exact absurd he (by decide)
      | cons a as => simp
    unfold parseLines parseLoop
    rw [h1, he]
    simp

/-- The resolved minimal configuration with one unknown key `foo=1` added
under ALGORITHM. -/
def algorithmFooConfig : List Section :=
  [⟨"PROBLEM", [("name", .str "energy")]⟩,
   ⟨"DRIVER", [("name", .str "HDF5")]⟩,
   ⟨"HDF5", [("hdf5_input", .str "h2_0.735_sto-3g.hdf5")]⟩,
   ⟨"OPERATOR", [("name", .str "hamiltonian"), ("qubit_mapping", .str "parity")]⟩,
   ⟨"ALGORITHM", [("name", .str "VQE"), ("operator_mode", .str "matrix"),
     ("foo", .int 1)]⟩,
   ⟨"OPTIMIZER", [("name", .str "L_BFGS_B")]⟩,
   ⟨"VARIATIONAL_FORM", [("name", .str "RYRZ")]⟩,
   ⟨"INITIAL_STATE", [("name", .str "ZERO")]⟩,
   ⟨"BACKEND", [("name", .str "local_statevector_simulator")]⟩]

/-- C5: value typing.  All-digit tokens parse to integers, decimal-pattern
tokens to floats, `true`/`false` to booleans, anything else to strings;
bracketed or comma-separated values parse to ordered sequences.  In
particular `h2_0.735_sto-3g.hdf5` (whose decimal pattern is only a
substring) parses to a string, as do `energy`, `VQE` and
`local_statevector_simulator`. -/
theorem value_typing :
    (∀ s : String, isIntTok s.data = true →
      parseScalar s = .int (natOfDigits s.data)) ∧
    (∀ s : String, isIntTok s.data = false → isFloatTok s.data = true →
      parseScalar s = .float s) ∧
    (∀ s : String, isIntTok s.data = false → isFloatTok s.data = false →
      isTrueTok s.data = true → parseScalar s = .boolv true) ∧
    (∀ s : String, isIntTok s.data = false → isFloatTok s.data = false →
      isTrueTok s.data = false → isFalseTok s.data = true →
      parseScalar s = .boolv false) ∧
    (∀ s : String, isIntTok s.data = false → isFloatTok s.data = false →
      isTrueTok s.data = false → isFalseTok s.data = false →
      parseScalar s = .str s) ∧
    parseScalar "123" = .int 123 ∧
    parseScalar "0.735" = .float "0.735" ∧
    parseScalar "6.5e2" = .float "6.5e2" ∧
    parseScalar "true" = .boolv true ∧
    parseScalar "false" = .boolv false ∧
    parseScalar "h2_0.735_sto-3g.hdf5" = .str "h2_0.735_sto-3g.hdf5" ∧
    parseScalar "energy" = .str "energy" ∧
    parseScalar "VQE" = .str "VQE" ∧
    parseScalar "local_statevector_simulator" =
      .str "local_statevector_simulator" ∧
    parseValue "[1, 2, 3]" = .seq [.int 1, .int 2, .int 3] ∧
    parseValue "energy,VQE" = .seq [.str "energy", .str "VQE"] ∧
    parseValue "h2_0.735_sto-3g.hdf5" = Value.str "h2_0.735_sto-3g.hdf5" := by
  refine ⟨?_, ?_, ?_, ?_, ?_, by decide, by decide, by decide, by decide,
    by decide, by decide, by decide, by decide, by decide, by decide,
    by decide, by decide⟩
  · intro s h1
    simp [parseScalar, parseScalarC, h1]
  · intro s h1 h2
    simp [parseScalar, parseScalarC, h1, h2, strOf]
  · intro s h1 h2 h3
    simp [parseScalar, parseScalarC, h1, h2, h3]
  · intro s h1 h2 h3 h4
    simp [parseScalar, parseScalarC, h1, h2, h3, h4]
  · intro s h1 h2 h3 h4
    simp [parseScalar, parseScalarC, h1, h2, h3, h4, strOf]

/-- Witness for C5's guarded clauses at concrete tokens. -/
theorem value_typing_witness :
    (isIntTok "123".data = true ∧ parseScalar "123" = .int (natOfDigits "123".data)) ∧
    (isIntTok "0.735".data = false ∧ isFloatTok "0.735".data = true ∧
      parseScalar "0.735" = .float "0.735") ∧
    (isIntTok "energy".data = false ∧ isFloatTok "energy".data = false ∧
      isTrueTok "energy".data = false ∧ isFalseTok "energy".data = false ∧
      parseScalar "energy" = .str "energy") :=
  ⟨⟨by decide, value_typing.1 "123" (by decide)⟩,
   ⟨by decide, by decide, value_typing.2.1 "0.735" (by decide) (by decide)⟩,
   ⟨by decide, by decide, by decide, by decide,
    value_typing.2.2.2.2.1 "energy" (by decide) (by decide) (by decide) (by decide)⟩⟩

/-- C6: validation reports exactly one error for the one unknown key
`ALGORITHM.foo`; an unrecognized extra top-level section never raises and
contributes no errors; and validation collects one entry per violation
across all sections instead of stopping at the first. -/
theorem validation_reports_all (s : Section) (ss ts : List Section)
    (hunk : allowedKeys s = none) :
    validate algorithmFooConfig = [⟨"ALGORITHM", "foo"⟩] ∧
    validate (ss ++ [s]) = validate ss ∧
    validate (ss ++ ts) = validate ss ++ validate ts := by
  refine ⟨by decide, ?_, ?_⟩
  · simp [validate, validateSection, hunk]
  · simp [validate]

/-- Witness for C6 at concrete inputs: a NAME section is unrecognized and
harmless, and validation distributes over configuration concatenation. -/
theorem validation_reports_all_witness :
    allowedKeys ⟨"NAME", [("note", Value.str "H2 molecule experiment")]⟩ = none ∧
    validate algorithmFooConfig = [⟨"ALGORITHM", "foo"⟩] ∧
    validate (minimalResolved ++
      [⟨"NAME", [("note", Value.str "H2 molecule experiment")]⟩]) =
      validate minimalResolved ∧
    validate (minimalResolved ++ minimalSections) =
      validate minimalResolved ++ validate minimalSections :=
  ⟨by decide, validation_reports_all
    ⟨"NAME", [("note", Value.str "H2 molecule experiment")]⟩
    minimalResolved minimalSections (by decide)⟩

/-- C8: along every run of the parse-resolve-validate-invoke pipeline, the
external algorithm entry point is invoked only in states where validation
returned the empty error list; the invoked configuration is exactly the
resolved configuration of the parsed input. -/
theorem invocation_only_when_valid (ls : List String) (inv : Invocation)
    (h : runPipeline ls = .ok inv) :
    validate inv.config = [] ∧
    ∃ ss, parseLines ls = .ok ss ∧ resolve ss = .ok inv.config := by
  unfold runPipeline at h
  split at h
  · exact absurd h (by simp)
  · rename_i ss hparse
    split at h
    · exact absurd h (by simp)
    · rename_i rs hres
      split at h
      · rename_i hval
        have hinv : inv = ⟨algNameOf rs, rs⟩ := (Except.ok.inj h).symm
        subst hinv
        exact ⟨hval, ss, hparse, hres⟩
      · exact absurd h (by simp)

/-- Witness for C8 at a concrete input: the minimal input runs the whole
pipeline and is invoked with an empty validation-error list. -/
theorem invocation_only_when_valid_witness :
    runPipeline minimalInputLines = .ok ⟨"VQE", minimalResolved⟩ ∧
    validate (Invocation.mk "VQE" minimalResolved).config = [] :=
  ⟨by decide, (invocation_only_when_valid minimalInputLines
    ⟨"VQE", minimalResolved⟩ (by decide)).1⟩

/-- C9: the notebook's two classical maxcut runs agree: ExactEigensolver
and CPLEX both report energy -20.5, maxcut objective -24.0 and the solution
[1, 0, 1, 1] with objective value 24.0; that solution indeed has cut value
24 under the notebook's weight matrix, and 24 is the optimum over all 16
binary vectors. -/
theorem maxcut_solvers_agree :
    exactEigensolverRun = cplexRun ∧
    exactEigensolverRun.energy = -41 / 2 ∧
    exactEigensolverRun.maxcutObjective = -24 ∧
    exactEigensolverRun.solutionObjective = 24 ∧
    cplexRun.solutionObjective = 24 ∧
    exactEigensolverRun.solution = List.ofFn sampleSolution ∧
    cplexRun.solution = exactEigensolverRun.solution ∧
    maxcutValue 4 sampleSolution sampleW = 24 ∧
    (∀ x : Fin 4 → Bool, maxcutValue 4 x sampleW ≤ 24) :=
  ⟨rfl, rfl, rfl, rfl, rfl, by decide, rfl, by decide, by decide⟩

/-- C10: the maxcut objective is complement-invariant: for every binary
vector x and every symmetric weight matrix w, x and its bitwise complement
have the same objective value. -/
theorem maxcut_complement_invariant (n : ℕ) (x : Fin n → Bool)
    (w : Fin n → Fin n → ℤ) (hsym : ∀ i j, w i j = w j i) :
    maxcutValue n x w = maxcutValue n (fun j => !x j) w := by
  unfold maxcutValue
  conv_rhs => rw [Finset.sum_comm]
  refine Finset.sum_congr rfl fun i _ => Finset.sum_congr rfl fun j _ => ?_
  cases hxi : x i <;> cases hxj : x j <;>
    simp [hxi, hxj, hsym i j]

/-- Witness for C10 at the notebook's data: the recorded weight matrix is
symmetric, so the recorded solution and its complement have equal
objective values. -/
theorem maxcut_complement_invariant_witness :
    (∀ i j, sampleW i j = sampleW j i) ∧
    maxcutValue 4 sampleSolution sampleW =
      maxcutValue 4 (fun j => !sampleSolution j) sampleW :=
  ⟨by decide, maxcut_complement_invariant 4 sampleSolution sampleW (by decide)⟩

/-- Witness for C7 at a concrete input: the minimal input's resolved
configuration resolves to itself. -/
theorem resolve_idempotent_witness :
    resolve minimalSections = .ok minimalResolved ∧
    resolve minimalResolved = .ok minimalResolved :=
  ⟨by decide, resolve_idempotent minimalSections minimalResolved (by decide)⟩

/-- Witness for C4 at concrete lines: a NAME header followed by the sample
file's free-text body line errors at line 2 naming that text, and a bare
`&END` errors at line 1. -/
theorem parser_rejects_malformed_lines_witness :
    isHeaderLine "&NAME" = true ∧
    isBadBodyLine
      "H2 molecule experiment. In order to be to run this, with no further" = true ∧
    parseLines ["&NAME",
      "H2 molecule experiment. In order to be to run this, with no further"] =
      .error ⟨2,
        "H2 molecule experiment. In order to be to run this, with no further"⟩ ∧
    isEndLine "&END" = true ∧
    parseLines ["&END"] = .error ⟨1, "&END"⟩ :=
  ⟨by decide, by decide,
   parser_rejects_malformed_lines.1 "&NAME"
     "H2 molecule experiment. In order to be to run this, with no further" []
     (by decide) (by decide),
   by decide,
   parser_rejects_malformed_lines.2.1 "&END" [] (by decide)⟩

end Acqua

